import Mathlib

/-!
Verification development for the geodesic bounding-box core of the
geovista repository (`src/lib/geovista/geodesic.py`).

The Python module is shallowly embedded over exact rationals (`ℚ`):
NumPy float arrays become `List ℚ`, errors raised by `bbox` become an
explicit `Except` error type, and the `pyproj` / `pyvista` /
`geovista.common` collaborators (which are not part of the sources under
verification) are modelled from the specification, each clearly marked
in its doc comment.
-/

namespace Geovista

/-- Absolute value on `ℚ`, written out explicitly so that concrete
instances reduce by `decide`/`rfl`. -/
def absQ (x : ℚ) : ℚ := if x < 0 then -x else x

/-- Modelled from the spec: `numpy.isclose(a, b)` with NumPy's default
tolerances `rtol = 1e-5`, `atol = 1e-8`, i.e. `|a - b| ≤ atol + rtol*|b|`
(the "small absolute tolerance on both axes" closeness check). -/
def isClose (a b : ℚ) : Bool :=
  decide (absQ (a - b) ≤ 1 / 100000000 + 1 / 100000 * absQ b)

/-- Modelled from the spec: `wrap` from `geovista.common` (repository code
not under `src/`): longitudes are mapped into the canonical half-open
range `[-180, 180)`, i.e. `((lon + 180) mod 360) - 180`. -/
def wrap (lon : ℚ) : ℚ :=
  (lon + 180) - 360 * (⌊(lon + 180) / 360⌋ : ℤ) - 180

/-- Modelled from the spec: the pointwise geodetic-to-Cartesian projection
of `to_xyz` from `geovista.common` (repository code not under `src/`):
each (lon, lat) pair maps to one XYZ triple on the sphere of the given
radius.  The trigonometric formula is irrelevant to every claim under
verification (only pointwise application and determinism matter), so a
rational stand-in is used. -/
def toXYZPoint (lon lat radius : ℚ) : ℚ × ℚ × ℚ :=
  (radius * lon, radius * lat, radius)

/-- Modelled from the spec: `to_xyz(lons, lats, radius)` from
`geovista.common` converts the geodetic points to Cartesian coordinates
at the given radius, one output point per input point. -/
def to_xyz (lons lats : List ℚ) (radius : ℚ) : List (ℚ × ℚ × ℚ) :=
  List.zipWith (fun lo la => toXYZPoint lo la radius) lons lats

/-- Modelled from the spec: a `pyproj.Geod` ellipsoid/geodesic model.  It
carries the ellipsoid name and the geodesic path map: `pos s e t` is the
point a fraction `t` of the way along the geodesic from `s` to `e`. -/
structure Geod where
  ellps : String
  pos : ℚ × ℚ → ℚ × ℚ → ℚ → ℚ × ℚ

/-- Modelled from the spec: the stand-in geodesic path used when a
concrete `Geod` is constructed from an ellipsoid name — equally spaced
points along the (here affine) lon/lat path.  No claim under
verification depends on the exact shape of the curve. -/
def affinePos (s e : ℚ × ℚ) (t : ℚ) : ℚ × ℚ :=
  (s.1 + t * (e.1 - s.1), s.2 + t * (e.2 - s.2))

/-- Modelled from the spec: `pyproj.Geod(ellps=...)` construction. -/
def pyprojGeod (ellps : String) : Geod :=
  { ellps := ellps, pos := affinePos }

/-- Geodesic ellipse for manifold creation (`MANIFOLD_ELLIPSE`). -/
def MANIFOLD_ELLIPSE : String := "WGS84"

/-- Number of equally spaced geodesic points (`MANIFOLD_NPTS`). -/
def MANIFOLD_NPTS : ℕ := 64

/-- The bounding-box geometry will contain `MANIFOLD_C ^ 2` faces. -/
def MANIFOLD_C : ℕ := 128

set_option linter.unusedVariables false in
/-- Modelled from the spec: `pyproj.Geod.npts` — the external
equally-spaced-point interpolation along a geodesic.  It returns the
`npts` intermediate points strictly between the endpoints, prefixed with
the start point when `initial_idx = 0` and suffixed with the end point
when `terminus_idx = 0` (pyproj's index-flag convention used by the
source).  The `radians` flag does not change the structure of the
result. -/
def Geod.npts (g : Geod) (lon1 lat1 lon2 lat2 : ℚ) (npts : ℕ)
    (radians : Bool) (initial_idx terminus_idx : ℕ) : List (ℚ × ℚ) :=
  (if initial_idx = 0 then [(lon1, lat1)] else []) ++
    ((List.range npts).map fun k : ℕ =>
      g.pos (lon1, lat1) (lon2, lat2) (((k : ℚ) + 1) / ((npts : ℚ) + 1))) ++
    (if terminus_idx = 0 then [(lon2, lat2)] else [])

/-- `geodesic` from `src/lib/geovista/geodesic.py`.  A `none` result
models the `ValueError` raised by the unpacking `glons, glats =
zip(*glonlats)` when the interpolation returns no points at all. -/
def geodesic (start_lon start_lat end_lon end_lat : ℚ) (npts : ℕ)
    (radians include_start include_end : Bool) (geod : Option Geod) :
    Option (List ℚ × List ℚ) :=
  let geod := geod.getD (pyprojGeod MANIFOLD_ELLIPSE)
  let initial_idx := if include_start then 0 else 1
  let terminus_idx := if include_end then 0 else 1
  let glonlats :=
    geod.npts start_lon start_lat end_lon end_lat npts radians
      initial_idx terminus_idx
  if glonlats.isEmpty then none
  else some (glonlats.map fun p => wrap p.1, glonlats.map fun p => p.2)

/-- `geodesic_by_idx` from `src/lib/geovista/geodesic.py`.  Python's
`longitudes[start_idx]` is embedded as `List.getD` (claims about this
function are restricted to valid indices, where the two agree). -/
def geodesic_by_idx (longitudes latitudes : List ℚ) (start_idx end_idx : ℕ)
    (npts : ℕ) (radians include_start include_end : Bool)
    (geod : Option Geod) : Option (List ℚ × List ℚ) :=
  let geod := geod.getD (pyprojGeod MANIFOLD_ELLIPSE)
  let start_lonlat := (longitudes.getD start_idx 0, latitudes.getD start_idx 0)
  let end_lonlat := (longitudes.getD end_idx 0, latitudes.getD end_idx 0)
  geodesic start_lonlat.1 start_lonlat.2 end_lonlat.1 end_lonlat.2 npts
    radians include_start include_end (some geod)

/-- The errors `bbox` can raise.  The first three carry the counts named
in the corresponding `ValueError` messages of the source.
`scalarTypeError` models the `TypeError` raised after the closed-ring
branch `lons, lats = lons[-1], lats[-1]` replaces both arrays with their
scalar last elements: the immediately following `bbox_extend(lons, lats)`
applies `len` to (and iterates) a NumPy scalar, which fails; the payload
records the two scalars.  `geodesicFailure` models a propagated failure
of the geodesic interpolation itself. -/
inductive BBoxError where
  | shapeMismatch (n_lons n_lats : ℕ)
  | insufficientCorners (n_lons : ℕ)
  | ambiguousCorners (n_lons : ℕ)
  | scalarTypeError (lon lat : ℚ)
  | geodesicFailure
  deriving DecidableEq

/-- The mesh handed to `pv.PolyData(xyz, faces=faces, n_faces=n_faces)`:
the Cartesian point array and the per-face vertex index lists (the
leading per-face vertex count `4` of the VTK encoding is represented by
the length of each inner list). -/
structure Mesh where
  points : List (ℚ × ℚ × ℚ)
  faces : List (List ℕ)
  deriving DecidableEq

/-- Which slice of `idx_map` a `bbox_update` call assigns: `idx_map[r, :]`
(with Python's row `-1` resolved to row `c`) or `idx_map[:, cl]`. -/
inductive Slice where
  | row (r : ℕ)
  | col (cl : ℕ)

/-- The grid cell at offset `k` of a slice. -/
def sliceCell (sl : Slice) (k : ℕ) : ℕ × ℕ :=
  match sl with
  | .row r => (r, k)
  | .col cl => (k, cl)

/-- The value list `[idx1] + list(np.arange(npts) + bbox_count) + [idx2]`
assigned to a slice by `bbox_update`. -/
def sliceVals (idx1 idx2 npts count : ℕ) : List ℕ :=
  [idx1] ++ (List.range npts).map (fun k => k + count) ++ [idx2]

/-- The NumPy slice assignment `idx_map[row, column] = vals` as a
function update: cells of the slice (bounded by the array extent `c`)
take the matching entry of `vals`, all other cells are unchanged. -/
def writeSlice (g : ℕ → ℕ → ℕ) (c : ℕ) (sl : Slice) (vals : List ℕ) :
    ℕ → ℕ → ℕ := fun i j =>
  match sl with
  | .row r => if i = r ∧ j ≤ c then vals.getD j 0 else g i j
  | .col cl => if j = cl ∧ i ≤ c then vals.getD i 0 else g i j

/-- The individual cell assignments `(row, column, value)` performed by
one slice assignment, in slice order. -/
def sliceWrites (c : ℕ) (sl : Slice) (vals : List ℕ) : List (ℕ × ℕ × ℕ) :=
  (List.range (c + 1)).map fun k =>
    ((sliceCell sl k).1, (sliceCell sl k).2, vals.getD k 0)

/-- The mutable state threaded through `bbox`'s construction: the two
growing point lists, the running `bbox_count`, the `idx_map` array (as a
function), and — for auditing the IndexGrid invariant — the ordered
trace of every individual cell assignment made to `idx_map`. -/
structure BBoxState where
  bbox_lons : List ℚ
  bbox_lats : List ℚ
  bbox_count : ℕ
  idx_map : ℕ → ℕ → ℕ
  writes : List (ℕ × ℕ × ℕ)

/-- `bbox_update(idx1, idx2, row=..., column=...)` from the source: one
geodesic interpolation between two already-registered vertices, one
slice assignment into `idx_map`, and one `bbox_extend`.  `none`
propagates a failed geodesic call. -/
def bbox_update (geod : Geod) (c npts : ℕ) (s : BBoxState)
    (idx1 idx2 : ℕ) (sl : Slice) : Option BBoxState :=
  match geodesic_by_idx s.bbox_lons s.bbox_lats idx1 idx2 npts false false
      false (some geod) with
  | none => none
  | some (glons, glats) =>
    let vals := sliceVals idx1 idx2 npts s.bbox_count
    some { bbox_lons := s.bbox_lons ++ glons
           bbox_lats := s.bbox_lats ++ glats
           bbox_count := s.bbox_count + glons.length
           idx_map := writeSlice s.idx_map c sl vals
           writes := s.writes ++ sliceWrites c sl vals }

/-- The state after `bbox_count = bbox_extend(lons, lats)`: the corner
points registered, the count equal to their number, `idx_map` not yet
written (`np.empty` contents are modelled as `0`; no cell is read before
being written). -/
def bboxInit (lons lats : List ℚ) : BBoxState :=
  { bbox_lons := lons
    bbox_lats := lats
    bbox_count := lons.length
    idx_map := fun _ _ => 0
    writes := [] }

/-- The four border `bbox_update` calls of the source, in order: row `0`
between corners `c1,c2`; row `-1` (= row `c`) between `c4,c3`; column
`0` between `c1,c4`; column `-1` (= column `c`) between `c2,c3`. -/
def bboxEdges (geod : Geod) (c npts : ℕ) (s : BBoxState) :
    Option BBoxState :=
  (bbox_update geod c npts s 0 1 (.row 0)).bind fun s1 =>
  (bbox_update geod c npts s1 3 2 (.row c)).bind fun s2 =>
  (bbox_update geod c npts s2 0 3 (.col 0)).bind fun s3 =>
  bbox_update geod c npts s3 1 2 (.col c)

/-- The interior loop `for row_idx in range(1, c)`: `bboxRows t`
processes rows `1 .. t` in increasing order; each row is interpolated
between that row's first (`row[0]`) and last (`row[-1]`, i.e. column
`c`) entries of `idx_map`. -/
def bboxRows (geod : Geod) (c npts : ℕ) : ℕ → BBoxState → Option BBoxState
  | 0, s => some s
  | t + 1, s =>
    (bboxRows geod c npts t s).bind fun s' =>
      bbox_update geod c npts s' (s'.idx_map (t + 1) 0)
        (s'.idx_map (t + 1) c) (.row (t + 1))

/-- The whole grid/vertex construction phase of `bbox` after validation:
the initial corner registration, the four border updates, then the
interior rows `1 .. c-1`, with `npts = c - 1`. -/
def bboxBuild (lons lats : List ℚ) (geod : Geod) (c : ℕ) :
    Option BBoxState :=
  (bboxEdges geod c (c - 1) (bboxInit lons lats)).bind fun s =>
    bboxRows geod c (c - 1) (c - 1) s

/-- The face list of the source: `faces_c1 .. faces_c4` are the row-major
ravels of the four shifted `c × c` sub-grids of `idx_map`, so face
`(i, j)` (row-major) references the grid cells `(i,j), (i,j+1),
(i+1,j+1), (i+1,j)` in that cyclic order. -/
def bboxFaces (g : ℕ → ℕ → ℕ) (c : ℕ) : List (List ℕ) :=
  (List.range c).flatMap fun i => (List.range c).map fun j =>
    [g i j, g i (j + 1), g (i + 1) (j + 1), g (i + 1) j]

/-- Modelled from the spec: `pyvista`'s `PolyData.triangulate()` — each
quad `[a, b, c, d]` is split along a deterministically chosen diagonal
into the triangles `[a, b, c]` and `[a, c, d]`; the point array is
unchanged. -/
def triangulateMesh (m : Mesh) : Mesh :=
  { points := m.points
    faces := m.faces.flatMap fun f =>
      [[f.getD 0 0, f.getD 1 0, f.getD 2 0],
       [f.getD 0 0, f.getD 2 0, f.getD 3 0]] }

/-- `bbox` from `src/lib/geovista/geodesic.py`: validation (shape
mismatch, then too few, then too many corners), the closed-ring
closeness check (whose branch replaces both arrays by their scalar last
elements — `lons[-1]`, not `lons[:-1]` — making the subsequent
`bbox_extend` raise a `TypeError`), then the grid construction, face
generation, point projection and optional triangulation. -/
def bbox (longitudes latitudes : List ℚ) (ellps : String) (radius : ℚ)
    (c : ℕ) (triangulate : Bool) : Except BBoxError Mesh :=
  let lons := longitudes
  let lats := latitudes
  let n_lons := lons.length
  let n_lats := lats.length
  if n_lons ≠ n_lats then .error (.shapeMismatch n_lons n_lats)
  else if n_lons < 4 then .error (.insufficientCorners n_lons)
  else if 5 < n_lons then .error (.ambiguousCorners n_lons)
  else if isClose (lons.getD 0 0) (lons.getLastD 0)
      && isClose (lats.getD 0 0) (lats.getLastD 0) then
    .error (.scalarTypeError (lons.getLastD 0) (lats.getLastD 0))
  else
    match bboxBuild lons lats (pyprojGeod ellps) c with
    | none => .error .geodesicFailure
    | some s =>
      let mesh : Mesh :=
        { points := to_xyz s.bbox_lons s.bbox_lats radius
          faces := bboxFaces s.idx_map c }
      if triangulate then .ok (triangulateMesh mesh) else .ok mesh

/-- The value every cell of `idx_map` holds once `bbox`'s construction
phase is complete, with `n₀` input corner points: corners `0,1,2,3`;
border interiors from the four edge interpolations; inner cells from the
per-row interpolations. -/
def expectedGrid (n₀ c : ℕ) (i j : ℕ) : ℕ :=
  if i = 0 then
    if j = 0 then 0 else if j = c then 1 else n₀ + (j - 1)
  else if i = c then
    if j = 0 then 3 else if j = c then 2 else n₀ + (c - 1) + (j - 1)
  else if j = 0 then n₀ + 2 * (c - 1) + (i - 1)
  else if j = c then n₀ + 3 * (c - 1) + (i - 1)
  else n₀ + 4 * (c - 1) + (i - 1) * (c - 1) + (j - 1)

/-- The inverse of `expectedGrid` on the populated square, used to show
the final grid holds pairwise-distinct vertex indices. -/
def invGrid (n₀ c v : ℕ) : ℕ × ℕ :=
  if v = 0 then (0, 0)
  else if v = 1 then (0, c)
  else if v = 2 then (c, c)
  else if v = 3 then (c, 0)
  else
    if v - n₀ < c - 1 then (0, v - n₀ + 1)
    else if v - n₀ < 2 * (c - 1) then (c, v - n₀ - (c - 1) + 1)
    else if v - n₀ < 3 * (c - 1) then (v - n₀ - 2 * (c - 1) + 1, 0)
    else if v - n₀ < 4 * (c - 1) then (v - n₀ - 3 * (c - 1) + 1, c)
    else ((v - n₀ - 4 * (c - 1)) / (c - 1) + 1,
      (v - n₀ - 4 * (c - 1)) % (c - 1) + 1)

/-! ### Basic lemmas about the geodesic curve generator -/

theorem wrap_range (lon : ℚ) : -180 ≤ wrap lon ∧ wrap lon < 180 := by
  have hfr : wrap lon = 360 * Int.fract ((lon + 180) / 360) - 180 := by
    unfold wrap Int.fract
    ring
  have h0 : (0 : ℚ) ≤ Int.fract ((lon + 180) / 360) := Int.fract_nonneg _
  have h1 : Int.fract ((lon + 180) / 360) < 1 := Int.fract_lt_one _
  constructor <;> [skip; skip] <;> rw [hfr] <;> linarith

theorem Geod.npts_length (g : Geod) (lon1 lat1 lon2 lat2 : ℚ) (n : ℕ)
    (radians : Bool) (initial_idx terminus_idx : ℕ) :
    (g.npts lon1 lat1 lon2 lat2 n radians initial_idx terminus_idx).length =
      (if initial_idx = 0 then 1 else 0) + n +
        (if terminus_idx = 0 then 1 else 0) := by
  unfold Geod.npts
  by_cases h1 : initial_idx = 0 <;> by_cases h2 : terminus_idx = 0 <;>
    simp [h1, h2, List.length_append] <;> omega

theorem geodesic_eq_some (start_lon start_lat end_lon end_lat : ℚ)
    (npts : ℕ) (radians include_start include_end : Bool)
    (geod : Option Geod)
    (h : 0 < (if include_start then 1 else 0) + npts +
      (if include_end then 1 else 0)) :
    ∃ glons glats, geodesic start_lon start_lat end_lon end_lat npts radians
        include_start include_end geod = some (glons, glats) ∧
      glons.length = (if include_start then 1 else 0) + npts +
        (if include_end then 1 else 0) ∧
      glats.length = (if include_start then 1 else 0) + npts +
        (if include_end then 1 else 0) := by
  unfold geodesic
  set g := geod.getD (pyprojGeod MANIFOLD_ELLIPSE) with hg
  set glonlats := g.npts start_lon start_lat end_lon end_lat npts radians
    (if include_start then 0 else 1) (if include_end then 0 else 1) with hgl
  have hlen : glonlats.length = (if include_start then 1 else 0) + npts +
      (if include_end then 1 else 0) := by
    rw [hgl, Geod.npts_length]
    cases include_start <;> cases include_end <;> simp
  have hne : glonlats.isEmpty = false := by
    cases hempty : glonlats.isEmpty
    · rfl
    · rw [List.isEmpty_iff] at hempty
      rw [hempty] at hlen
      simp at hlen
      omega
  refine ⟨glonlats.map fun p => wrap p.1, glonlats.map fun p => p.2, ?_, ?_, ?_⟩
  · simp [hne]
  · simpa using hlen
  · simpa using hlen

theorem geodesic_none_mem_range (start_lon start_lat end_lon end_lat : ℚ)
    (npts : ℕ) (radians include_start include_end : Bool) (geod : Option Geod)
    (glons glats : List ℚ)
    (h : geodesic start_lon start_lat end_lon end_lat npts radians
      include_start include_end geod = some (glons, glats)) :
    ∀ x ∈ glons, -180 ≤ x ∧ x < 180 := by
  intro x hx
  unfold geodesic at h
  by_cases hne : ((geod.getD (pyprojGeod MANIFOLD_ELLIPSE)).npts start_lon
      start_lat end_lon end_lat npts radians (if include_start then 0 else 1)
      (if include_end then 0 else 1)).isEmpty
  · simp [hne] at h
  · simp only [hne, Bool.false_eq_true, if_false, Option.some.injEq,
      Prod.mk.injEq] at h
    obtain ⟨hlons, _⟩ := h
    rw [← hlons] at hx
    obtain ⟨p, _, hp⟩ := List.mem_map.mp hx
    rw [← hp]
    exact wrap_range p.1

theorem geodesic_lats_unaltered (start_lon start_lat end_lon end_lat : ℚ)
    (npts : ℕ) (radians include_start include_end : Bool) (geod : Option Geod)
    (glons glats : List ℚ)
    (h : geodesic start_lon start_lat end_lon end_lat npts radians
      include_start include_end geod = some (glons, glats)) :
    glats = ((geod.getD (pyprojGeod MANIFOLD_ELLIPSE)).npts start_lon
      start_lat end_lon end_lat npts radians (if include_start then 0 else 1)
      (if include_end then 0 else 1)).map (fun p => p.2) := by
  unfold geodesic at h
  by_cases hne : ((geod.getD (pyprojGeod MANIFOLD_ELLIPSE)).npts start_lon
      start_lat end_lon end_lat npts radians (if include_start then 0 else 1)
      (if include_end then 0 else 1)).isEmpty
  · simp [hne] at h
  · simp only [hne, Bool.false_eq_true, if_false, Option.some.injEq,
      Prod.mk.injEq] at h
    exact h.2.symm

/-! ### The closed form of the IndexGrid built by `bbox` -/

theorem sliceVals_getD_zero (idx1 idx2 npts count : ℕ) :
    (sliceVals idx1 idx2 npts count).getD 0 0 = idx1 := rfl

theorem sliceVals_getD_mid (idx1 idx2 npts count k : ℕ) (h1 : 1 ≤ k)
    (h2 : k ≤ npts) :
    (sliceVals idx1 idx2 npts count).getD k 0 = k - 1 + count := by
  cases k with
  | zero => omega
  | succ m =>
    show (idx1 :: ((List.range npts).map (fun k => k + count) ++
      [idx2])).getD (m + 1) 0 = m + 1 - 1 + count
    rw [List.getD_cons_succ]
    have hm : m < ((List.range npts).map (fun k => k + count)).length := by
      simp
      omega
    rw [List.getD_append _ _ _ _ hm]
    rw [List.getD_eq_getElem _ _ hm, List.getElem_map, List.getElem_range]
    omega

theorem sliceVals_getD_last (idx1 idx2 npts count : ℕ) :
    (sliceVals idx1 idx2 npts count).getD (npts + 1) 0 = idx2 := by
  show (idx1 :: ((List.range npts).map (fun k => k + count) ++ [idx2])).getD
    (npts + 1) 0 = idx2
  rw [List.getD_cons_succ]
  rw [List.getD_append_right _ _ _ _ (by simp)]
  simp

theorem sliceVals_getD_last' (idx1 idx2 npts count k : ℕ)
    (h : k = npts + 1) :
    (sliceVals idx1 idx2 npts count).getD k 0 = idx2 := by
  rw [h]
  exact sliceVals_getD_last idx1 idx2 npts count

theorem valsRow0 (n₀ c k : ℕ) (hc : 2 ≤ c) (hk : k ≤ c) :
    (sliceVals 0 1 (c - 1) n₀).getD k 0 = expectedGrid n₀ c 0 k := by
  have hc0 : c ≠ 0 := by omega
  rcases eq_or_ne k 0 with rfl | hk0
  · rw [sliceVals_getD_zero]
    simp [expectedGrid]
  rcases eq_or_ne k c with hkc | hkc
  · rw [sliceVals_getD_last' _ _ _ _ _ (by omega), hkc]
    simp [expectedGrid, hc0]
  · rw [sliceVals_getD_mid _ _ _ _ k (by omega) (by omega)]
    simp [expectedGrid, hk0, hkc]
    omega

theorem valsRowC (n₀ c k : ℕ) (hc : 2 ≤ c) (hk : k ≤ c) :
    (sliceVals 3 2 (c - 1) (n₀ + (c - 1))).getD k 0 =
      expectedGrid n₀ c c k := by
  have hc0 : c ≠ 0 := by omega
  rcases eq_or_ne k 0 with rfl | hk0
  · rw [sliceVals_getD_zero]
    simp [expectedGrid, hc0]
  rcases eq_or_ne k c with hkc | hkc
  · rw [sliceVals_getD_last' _ _ _ _ _ (by omega), hkc]
    simp [expectedGrid, hc0]
  · rw [sliceVals_getD_mid _ _ _ _ k (by omega) (by omega)]
    simp [expectedGrid, hc0, hk0, hkc]
    omega

theorem valsCol0 (n₀ c k : ℕ) (hc : 2 ≤ c) (hk : k ≤ c) :
    (sliceVals 0 3 (c - 1) (n₀ + 2 * (c - 1))).getD k 0 =
      expectedGrid n₀ c k 0 := by
  have hc0 : c ≠ 0 := by omega
  rcases eq_or_ne k 0 with rfl | hk0
  · rw [sliceVals_getD_zero]
    simp [expectedGrid]
  rcases eq_or_ne k c with hkc | hkc
  · rw [sliceVals_getD_last' _ _ _ _ _ (by omega), hkc]
    simp [expectedGrid, hc0]
  · rw [sliceVals_getD_mid _ _ _ _ k (by omega) (by omega)]
    simp [expectedGrid, hk0, hkc]
    omega

theorem valsColC (n₀ c k : ℕ) (hc : 2 ≤ c) (hk : k ≤ c) :
    (sliceVals 1 2 (c - 1) (n₀ + 3 * (c - 1))).getD k 0 =
      expectedGrid n₀ c k c := by
  have hc0 : c ≠ 0 := by omega
  rcases eq_or_ne k 0 with rfl | hk0
  · rw [sliceVals_getD_zero]
    simp [expectedGrid, hc0]
  rcases eq_or_ne k c with hkc | hkc
  · rw [sliceVals_getD_last' _ _ _ _ _ (by omega), hkc]
    simp [expectedGrid, hc0]
  · rw [sliceVals_getD_mid _ _ _ _ k (by omega) (by omega)]
    simp [expectedGrid, hc0, hk0, hkc]
    omega

theorem valsRowR (n₀ c r k : ℕ) (hc : 2 ≤ c) (hr1 : 1 ≤ r)
    (hr2 : r ≤ c - 1) (hk : k ≤ c) :
    (sliceVals (expectedGrid n₀ c r 0) (expectedGrid n₀ c r c) (c - 1)
      (n₀ + 4 * (c - 1) + (r - 1) * (c - 1))).getD k 0 =
      expectedGrid n₀ c r k := by
  have hr0 : r ≠ 0 := by omega
  have hrc : r ≠ c := by omega
  rcases eq_or_ne k 0 with rfl | hk0
  · rw [sliceVals_getD_zero]
  rcases eq_or_ne k c with hkc | hkc
  · rw [sliceVals_getD_last' _ _ _ _ _ (by omega), hkc]
  · rw [sliceVals_getD_mid _ _ _ _ k (by omega) (by omega)]
    simp [expectedGrid, hr0, hrc, hk0, hkc]
    omega

/-! ### State evolution through the construction phase -/

theorem geodesic_by_idx_some (lons lats : List ℚ) (i j npts : ℕ)
    (geod : Geod) (h : 1 ≤ npts) :
    ∃ glons glats, geodesic_by_idx lons lats i j npts false false false
        (some geod) = some (glons, glats) ∧
      glons.length = npts ∧ glats.length = npts := by
  obtain ⟨glons, glats, heq, h1, h2⟩ :=
    geodesic_eq_some (lons.getD i 0) (lats.getD i 0) (lons.getD j 0)
      (lats.getD j 0) npts false false false (some geod) (by simp; omega)
  refine ⟨glons, glats, ?_, ?_, ?_⟩
  · unfold geodesic_by_idx
    simpa using heq
  · simpa using h1
  · simpa using h2

theorem bbox_update_spec (geod : Geod) (c npts : ℕ) (s : BBoxState)
    (idx1 idx2 : ℕ) (sl : Slice) (h : 1 ≤ npts) :
    ∃ s', bbox_update geod c npts s idx1 idx2 sl = some s' ∧
      s'.bbox_count = s.bbox_count + npts ∧
      s'.bbox_lons.length = s.bbox_lons.length + npts ∧
      s'.bbox_lats.length = s.bbox_lats.length + npts ∧
      s'.idx_map = writeSlice s.idx_map c sl
        (sliceVals idx1 idx2 npts s.bbox_count) ∧
      s'.writes = s.writes ++ sliceWrites c sl
        (sliceVals idx1 idx2 npts s.bbox_count) := by
  obtain ⟨glons, glats, heq, h1, h2⟩ :=
    geodesic_by_idx_some s.bbox_lons s.bbox_lats idx1 idx2 npts geod h
  refine ⟨{ bbox_lons := s.bbox_lons ++ glons
            bbox_lats := s.bbox_lats ++ glats
            bbox_count := s.bbox_count + glons.length
            idx_map := writeSlice s.idx_map c sl
              (sliceVals idx1 idx2 npts s.bbox_count)
            writes := s.writes ++ sliceWrites c sl
              (sliceVals idx1 idx2 npts s.bbox_count) }, ?_, ?_, ?_, ?_, ?_, ?_⟩
  · unfold bbox_update
    rw [heq]
  · simp [h1]
  · simp [h1]
  · simp [h2]
  · rfl
  · rfl

theorem sliceWrites_length (c : ℕ) (sl : Slice) (vals : List ℕ) :
    (sliceWrites c sl vals).length = c + 1 := by
  simp [sliceWrites]

theorem mem_sliceWrites (c : ℕ) (sl : Slice) (vals : List ℕ)
    (w : ℕ × ℕ × ℕ) (hw : w ∈ sliceWrites c sl vals) :
    ∃ k, k ≤ c ∧ w = ((sliceCell sl k).1, (sliceCell sl k).2, vals.getD k 0) := by
  obtain ⟨k, hk, rfl⟩ := List.mem_map.mp hw
  have hk' : k < c + 1 := List.mem_range.mp hk
  exact ⟨k, by omega, rfl⟩

theorem sliceWrites_mem_of_le (c : ℕ) (sl : Slice) (vals : List ℕ)
    (k : ℕ) (hk : k ≤ c) :
    ((sliceCell sl k).1, (sliceCell sl k).2, vals.getD k 0) ∈
      sliceWrites c sl vals := by
  exact List.mem_map.mpr ⟨k, List.mem_range.mpr (by omega), rfl⟩

theorem bboxEdges_spec (lons lats : List ℚ) (geod : Geod) (c : ℕ)
    (hc : 2 ≤ c) :
    ∃ s4, bboxEdges geod c (c - 1) (bboxInit lons lats) = some s4 ∧
      s4.bbox_count = lons.length + 4 * (c - 1) ∧
      s4.bbox_lons.length = lons.length + 4 * (c - 1) ∧
      s4.bbox_lats.length = lats.length + 4 * (c - 1) ∧
      (∀ i j, i ≤ c → j ≤ c → (i = 0 ∨ i = c ∨ j = 0 ∨ j = c) →
        s4.idx_map i j = expectedGrid lons.length c i j) ∧
      s4.writes.length = 4 * (c + 1) ∧
      (∀ w ∈ s4.writes, (w.1 = 0 ∨ w.1 = c ∨ w.2.1 = 0 ∨ w.2.1 = c) ∧
        w.1 ≤ c ∧ w.2.1 ≤ c ∧
        w.2.2 = expectedGrid lons.length c w.1 w.2.1) ∧
      (∀ i j, i ≤ c → j ≤ c → (i = 0 ∨ i = c ∨ j = 0 ∨ j = c) →
        ∃ v, (i, j, v) ∈ s4.writes) := by
  have hnpts : 1 ≤ c - 1 := by omega
  obtain ⟨s1, he1, hcnt1, hlon1, hlat1, hmap1, hwr1⟩ :=
    bbox_update_spec geod c (c - 1) (bboxInit lons lats) 0 1 (.row 0) hnpts
  obtain ⟨s2, he2, hcnt2, hlon2, hlat2, hmap2, hwr2⟩ :=
    bbox_update_spec geod c (c - 1) s1 3 2 (.row c) hnpts
  obtain ⟨s3, he3, hcnt3, hlon3, hlat3, hmap3, hwr3⟩ :=
    bbox_update_spec geod c (c - 1) s2 0 3 (.col 0) hnpts
  obtain ⟨s4, he4, hcnt4, hlon4, hlat4, hmap4, hwr4⟩ :=
    bbox_update_spec geod c (c - 1) s3 1 2 (.col c) hnpts
  have hcnt0 : (bboxInit lons lats).bbox_count = lons.length := rfl
  have hcnt1' : s1.bbox_count = lons.length + (c - 1) := by
    rw [hcnt1, hcnt0]
  have hcnt2' : s2.bbox_count = lons.length + 2 * (c - 1) := by
    rw [hcnt2, hcnt1']
    ring
  have hcnt3' : s3.bbox_count = lons.length + 3 * (c - 1) := by
    rw [hcnt3, hcnt2']
    ring
  have hcnt4' : s4.bbox_count = lons.length + 4 * (c - 1) := by
    rw [hcnt4, hcnt3']
    ring
  rw [hcnt0] at hmap1 hwr1
  rw [hcnt1'] at hmap2 hwr2
  rw [hcnt2'] at hmap3 hwr3
  rw [hcnt3'] at hmap4 hwr4
  have hwr : s4.writes =
      sliceWrites c (.row 0) (sliceVals 0 1 (c - 1) lons.length) ++
      (sliceWrites c (.row c)
        (sliceVals 3 2 (c - 1) (lons.length + (c - 1))) ++
      (sliceWrites c (.col 0)
        (sliceVals 0 3 (c - 1) (lons.length + 2 * (c - 1))) ++
      sliceWrites c (.col c)
        (sliceVals 1 2 (c - 1) (lons.length + 3 * (c - 1))))) := by
    rw [hwr4, hwr3, hwr2, hwr1]
    show ((bboxInit lons lats).writes ++ _) ++ _ ++ _ ++ _ = _
    simp [bboxInit, List.append_assoc]
  refine ⟨s4, ?_, hcnt4', ?_, ?_, ?_, ?_, ?_, ?_⟩
  · unfold bboxEdges
    rw [he1, Option.some_bind, he2, Option.some_bind, he3, Option.some_bind,
      he4]
  · rw [hlon4, hlon3, hlon2, hlon1]
    show lons.length + _ + _ + _ + _ = _
    ring
  · rw [hlat4, hlat3, hlat2, hlat1]
    show lats.length + _ + _ + _ + _ = _
    ring
  · intro i j hi hj hb
    rw [hmap4]
    by_cases hjc : j = c
    · rw [hjc]
      simp only [writeSlice, hi, and_true, if_pos rfl]
      exact valsColC lons.length c i hc hi
    · simp only [writeSlice, hjc, false_and, if_false]
      rw [hmap3]
      by_cases hj0 : j = 0
      · rw [hj0]
        simp only [writeSlice, hi, and_true, if_pos rfl]
        exact valsCol0 lons.length c i hc hi
      · simp only [writeSlice, hj0, false_and, if_false]
        rw [hmap2]
        by_cases hic : i = c
        · rw [hic]
          simp only [writeSlice, hj, and_true, if_pos rfl]
          exact valsRowC lons.length c j hc hj
        · simp only [writeSlice, hic, false_and, if_false]
          rw [hmap1]
          have hi0 : i = 0 := by tauto
          rw [hi0]
          simp only [writeSlice, hj, and_true, if_pos rfl]
          exact valsRow0 lons.length c j hc hj
  · rw [hwr]
    simp [sliceWrites_length]
    ring
  · intro w hw
    rw [hwr] at hw
    simp only [List.mem_append] at hw
    rcases hw with hw | hw | hw | hw
    · obtain ⟨k, hk, rfl⟩ := mem_sliceWrites _ _ _ _ hw
      exact ⟨Or.inl rfl, Nat.zero_le c, hk, valsRow0 lons.length c k hc hk⟩
    · obtain ⟨k, hk, rfl⟩ := mem_sliceWrites _ _ _ _ hw
      exact ⟨Or.inr (Or.inl rfl), le_refl c, hk,
        valsRowC lons.length c k hc hk⟩
    · obtain ⟨k, hk, rfl⟩ := mem_sliceWrites _ _ _ _ hw
      exact ⟨Or.inr (Or.inr (Or.inl rfl)), hk, Nat.zero_le c,
        valsCol0 lons.length c k hc hk⟩
    · obtain ⟨k, hk, rfl⟩ := mem_sliceWrites _ _ _ _ hw
      exact ⟨Or.inr (Or.inr (Or.inr rfl)), hk, le_refl c,
        valsColC lons.length c k hc hk⟩
  · intro i j hi hj hb
    rw [hwr]
    rcases hb with hi0 | hic | hj0 | hjc
    · subst hi0
      exact ⟨_, List.mem_append_left _
        (sliceWrites_mem_of_le c (.row 0)
          (sliceVals 0 1 (c - 1) lons.length) j hj)⟩
    · rw [hic]
      exact ⟨_, List.mem_append_right _ (List.mem_append_left _
        (sliceWrites_mem_of_le c (.row c)
          (sliceVals 3 2 (c - 1) (lons.length + (c - 1))) j hj))⟩
    · subst hj0
      exact ⟨_, List.mem_append_right _ (List.mem_append_right _
        (List.mem_append_left _
          (sliceWrites_mem_of_le c (.col 0)
            (sliceVals 0 3 (c - 1) (lons.length + 2 * (c - 1))) i hi)))⟩
    · rw [hjc]
      exact ⟨_, List.mem_append_right _ (List.mem_append_right _
        (List.mem_append_right _
          (sliceWrites_mem_of_le c (.col c)
            (sliceVals 1 2 (c - 1) (lons.length + 3 * (c - 1))) i hi)))⟩

theorem bboxRows_spec (lons lats : List ℚ) (geod : Geod) (c : ℕ)
    (hc : 2 ≤ c) (s4 : BBoxState)
    (hcnt : s4.bbox_count = lons.length + 4 * (c - 1))
    (hlon : s4.bbox_lons.length = lons.length + 4 * (c - 1))
    (hlat : s4.bbox_lats.length = lats.length + 4 * (c - 1))
    (hmap : ∀ i j, i ≤ c → j ≤ c → (i = 0 ∨ i = c ∨ j = 0 ∨ j = c) →
      s4.idx_map i j = expectedGrid lons.length c i j)
    (hwmem : ∀ w ∈ s4.writes, w.1 ≤ c ∧ w.2.1 ≤ c ∧
      w.2.2 = expectedGrid lons.length c w.1 w.2.1)
    (hwcov : ∀ i j, i ≤ c → j ≤ c → (i = 0 ∨ i = c ∨ j = 0 ∨ j = c) →
      ∃ v, (i, j, v) ∈ s4.writes) :
    ∀ t, t ≤ c - 1 →
      ∃ s, bboxRows geod c (c - 1) t s4 = some s ∧
        s.bbox_count = lons.length + 4 * (c - 1) + t * (c - 1) ∧
        s.bbox_lons.length = lons.length + 4 * (c - 1) + t * (c - 1) ∧
        s.bbox_lats.length = lats.length + 4 * (c - 1) + t * (c - 1) ∧
        (∀ i j, i ≤ c → j ≤ c →
          (i = 0 ∨ i = c ∨ j = 0 ∨ j = c ∨ i ≤ t) →
          s.idx_map i j = expectedGrid lons.length c i j) ∧
        (∃ tail, s.writes = s4.writes ++ tail) ∧
        (∀ w ∈ s.writes, w.1 ≤ c ∧ w.2.1 ≤ c ∧
          w.2.2 = expectedGrid lons.length c w.1 w.2.1) ∧
        (∀ i j, i ≤ c → j ≤ c →
          (i = 0 ∨ i = c ∨ j = 0 ∨ j = c ∨ i ≤ t) →
          ∃ v, (i, j, v) ∈ s.writes) := by
  intro t
  induction t with
  | zero =>
    intro _
    refine ⟨s4, rfl, by simpa using hcnt, by simpa using hlon,
      by simpa using hlat, ?_, ⟨[], by simp⟩, hwmem, ?_⟩
    · intro i j hi hj hb
      exact hmap i j hi hj (by omega)
    · intro i j hi hj hb
      exact hwcov i j hi hj (by omega)
  | succ t ih =>
    intro ht
    obtain ⟨s, hrows, hcnt', hlon', hlat', hmap', ⟨tail, htail⟩, hwmem',
      hwcov'⟩ := ih (by omega)
    have hidx1 : s.idx_map (t + 1) 0 = expectedGrid lons.length c (t + 1) 0 :=
      hmap' (t + 1) 0 (by omega) (by omega) (Or.inr (Or.inr (Or.inl rfl)))
    have hidx2 : s.idx_map (t + 1) c = expectedGrid lons.length c (t + 1) c :=
      hmap' (t + 1) c (by omega) (le_refl c)
        (Or.inr (Or.inr (Or.inr (Or.inl rfl))))
    obtain ⟨s', hupd, hcnt'', hlon'', hlat'', hmap'', hwr''⟩ :=
      bbox_update_spec geod c (c - 1) s (s.idx_map (t + 1) 0)
        (s.idx_map (t + 1) c) (.row (t + 1)) (by omega)
    have hvals : sliceVals (s.idx_map (t + 1) 0) (s.idx_map (t + 1) c)
        (c - 1) s.bbox_count =
        sliceVals (expectedGrid lons.length c (t + 1) 0)
          (expectedGrid lons.length c (t + 1) c) (c - 1)
          (lons.length + 4 * (c - 1) + t * (c - 1)) := by
      rw [hidx1, hidx2, hcnt']
    have hrowvals : ∀ k, k ≤ c →
        (sliceVals (s.idx_map (t + 1) 0) (s.idx_map (t + 1) c) (c - 1)
          s.bbox_count).getD k 0 = expectedGrid lons.length c (t + 1) k := by
      intro k hk
      rw [hvals]
      have := valsRowR lons.length c (t + 1) k hc (by omega) (by omega) hk
      simpa using this
    refine ⟨s', ?_, ?_, ?_, ?_, ?_, ?_, ?_, ?_⟩
    · have hstep : bboxRows geod c (c - 1) (t + 1) s4 =
          (bboxRows geod c (c - 1) t s4).bind fun s'' =>
            bbox_update geod c (c - 1) s'' (s''.idx_map (t + 1) 0)
              (s''.idx_map (t + 1) c) (.row (t + 1)) := rfl
      rw [hstep, hrows, Option.some_bind, hupd]
    · rw [hcnt'', hcnt']
      ring
    · rw [hlon'', hlon']
      ring
    · rw [hlat'', hlat']
      ring
    · intro i j hi hj hb
      rw [hmap'']
      by_cases hit : i = t + 1
      · rw [hit]
        simp only [writeSlice, hj, and_true, if_pos rfl]
        exact hrowvals j hj
      · simp only [writeSlice, hit, false_and, if_false]
        exact hmap' i j hi hj (by omega)
    · exact ⟨tail ++ sliceWrites c (.row (t + 1))
        (sliceVals (s.idx_map (t + 1) 0) (s.idx_map (t + 1) c) (c - 1)
          s.bbox_count), by rw [hwr'', htail, List.append_assoc]⟩
    · intro w hw
      rw [hwr''] at hw
      rcases List.mem_append.mp hw with hw | hw
      · exact hwmem' w hw
      · obtain ⟨k, hk, rfl⟩ := mem_sliceWrites _ _ _ _ hw
        exact ⟨by show t + 1 ≤ c; omega, hk, hrowvals k hk⟩
    · intro i j hi hj hb
      by_cases hold : i = 0 ∨ i = c ∨ j = 0 ∨ j = c ∨ i ≤ t
      · obtain ⟨v, hv⟩ := hwcov' i j hi hj hold
        exact ⟨v, by rw [hwr'']; exact List.mem_append_left _ hv⟩
      · have hieq : i = t + 1 := by omega
        refine ⟨(sliceVals (s.idx_map (t + 1) 0) (s.idx_map (t + 1) c)
          (c - 1) s.bbox_count).getD j 0, ?_⟩
        rw [hwr'', hieq]
        exact List.mem_append_right _
          (sliceWrites_mem_of_le c (.row (t + 1)) _ j hj)

theorem bboxBuild_spec (lons lats : List ℚ) (geod : Geod) (c : ℕ)
    (hc : 2 ≤ c) :
    ∃ s, bboxBuild lons lats geod c = some s ∧
      s.bbox_count = lons.length + (c + 3) * (c - 1) ∧
      s.bbox_lons.length = lons.length + (c + 3) * (c - 1) ∧
      s.bbox_lats.length = lats.length + (c + 3) * (c - 1) ∧
      (∀ i j, i ≤ c → j ≤ c →
        s.idx_map i j = expectedGrid lons.length c i j) ∧
      (∀ w ∈ s.writes, w.1 ≤ c ∧ w.2.1 ≤ c ∧
        w.2.2 = expectedGrid lons.length c w.1 w.2.1) ∧
      (∀ i j, i ≤ c → j ≤ c → ∃ v, (i, j, v) ∈ s.writes) ∧
      (∀ w ∈ s.writes.take (4 * (c + 1)),
        w.1 = 0 ∨ w.1 = c ∨ w.2.1 = 0 ∨ w.2.1 = c) := by
  obtain ⟨s4, he, hcnt, hlon, hlat, hmap, hwlen, hwmem4, hwcov4⟩ :=
    bboxEdges_spec lons lats geod c hc
  obtain ⟨s, hrows, hcnt', hlon', hlat', hmap', ⟨tail, htail⟩, hwmem,
    hwcov⟩ := bboxRows_spec lons lats geod c hc s4 hcnt hlon hlat hmap
      (fun w hw => (hwmem4 w hw).2) hwcov4 (c - 1) (le_refl _)
  have harith : ∀ L : ℕ, L + 4 * (c - 1) + (c - 1) * (c - 1) =
      L + (c + 3) * (c - 1) := by
    intro L
    have h4 : c + 3 = (c - 1) + 4 := by omega
    rw [h4]
    ring
  refine ⟨s, ?_, ?_, ?_, ?_, ?_, hwmem, ?_, ?_⟩
  · unfold bboxBuild
    rw [he, Option.some_bind, hrows]
  · rw [hcnt', harith]
  · rw [hlon', harith]
  · rw [hlat', harith]
  · intro i j hi hj
    rcases eq_or_ne i c with h | h
    · exact hmap' i j hi hj (Or.inr (Or.inl h))
    · exact hmap' i j hi hj (Or.inr (Or.inr (Or.inr (Or.inr (by omega)))))
  · intro i j hi hj
    rcases eq_or_ne i c with h | h
    · exact hwcov i j hi hj (Or.inr (Or.inl h))
    · exact hwcov i j hi hj (Or.inr (Or.inr (Or.inr (Or.inr (by omega)))))
  · intro w hw
    rw [htail, ← hwlen, List.take_left] at hw
    exact (hwmem4 w hw).1

/-! ### Injectivity and bounds of the final grid -/

theorem expectedGrid_lt (n₀ c i j : ℕ) (hc : 2 ≤ c) (h4 : 4 ≤ n₀)
    (hi : i ≤ c) (hj : j ≤ c) :
    expectedGrid n₀ c i j < n₀ + (c + 3) * (c - 1) := by
  have hpos : 0 < (c + 3) * (c - 1) := Nat.mul_pos (by omega) (by omega)
  have h0c : (0 : ℕ) ≠ c := by omega
  have hc0 : c ≠ 0 := by omega
  by_cases hi0 : i = 0
  · by_cases hj0 : j = 0
    · have hval : expectedGrid n₀ c i j = 0 := by
        simp [expectedGrid, hc0, hi0, hj0]
      omega
    · by_cases hjc : j = c
      · have hval : expectedGrid n₀ c i j = 1 := by
          simp [expectedGrid, hc0, hi0, hj0, hjc]
        omega
      · have hval : expectedGrid n₀ c i j = n₀ + (j - 1) := by
          simp [expectedGrid, hc0, hi0, hj0, hjc]
        have hle : c - 1 ≤ (c + 3) * (c - 1) :=
          Nat.le_mul_of_pos_left _ (by omega)
        omega
  · by_cases hic : i = c
    · by_cases hj0 : j = 0
      · have hval : expectedGrid n₀ c i j = 3 := by
          simp [expectedGrid, hc0, hi0, hic, hj0]
        omega
      · by_cases hjc : j = c
        · have hval : expectedGrid n₀ c i j = 2 := by
            simp [expectedGrid, hc0, hi0, hic, hj0, hjc]
          omega
        · have hval : expectedGrid n₀ c i j = n₀ + (c - 1) + (j - 1) := by
            simp [expectedGrid, hc0, hi0, hic, hj0, hjc]
          have h2 : 2 * (c - 1) ≤ (c + 3) * (c - 1) :=
            Nat.mul_le_mul_right _ (by omega)
          omega
    · by_cases hj0 : j = 0
      · have hval : expectedGrid n₀ c i j = n₀ + 2 * (c - 1) + (i - 1) := by
          simp [expectedGrid, hc0, hi0, hic, hj0]
        have h3 : 3 * (c - 1) ≤ (c + 3) * (c - 1) :=
          Nat.mul_le_mul_right _ (by omega)
        omega
      · by_cases hjc : j = c
        · have hval : expectedGrid n₀ c i j = n₀ + 3 * (c - 1) + (i - 1) := by
            simp [expectedGrid, hc0, hi0, hic, hj0, hjc]
          have h4' : 4 * (c - 1) ≤ (c + 3) * (c - 1) :=
            Nat.mul_le_mul_right _ (by omega)
          omega
        · have hval : expectedGrid n₀ c i j =
              n₀ + 4 * (c - 1) + (i - 1) * (c - 1) + (j - 1) := by
            simp [expectedGrid, hc0, hi0, hic, hj0, hjc]
          have hmul : (i - 1) * (c - 1) ≤ (c - 2) * (c - 1) :=
            Nat.mul_le_mul_right _ (by omega)
          have hexp : 4 * (c - 1) + (c - 2) * (c - 1) + (c - 1) =
              (c + 3) * (c - 1) := by
            have h5 : c + 3 = 4 + (c - 2) + 1 := by omega
            rw [h5]
            ring
          omega

set_option maxHeartbeats 1600000 in
theorem invGrid_expectedGrid (n₀ c i j : ℕ) (hc : 2 ≤ c) (h4 : 4 ≤ n₀)
    (hi : i ≤ c) (hj : j ≤ c) :
    invGrid n₀ c (expectedGrid n₀ c i j) = (i, j) := by
  have hcm : 0 < c - 1 := by omega
  have hc0 : c ≠ 0 := by omega
  by_cases hi0 : i = 0
  · by_cases hj0 : j = 0
    · have hval : expectedGrid n₀ c i j = 0 := by
        simp [expectedGrid, hc0, hi0, hj0]
      rw [hval]
      unfold invGrid
      split_ifs <;> first
        | exact absurd rfl (by assumption)
        | exact False.elim (by assumption)
        | (simp only [Prod.mk.injEq]; omega)
    · by_cases hjc : j = c
      · have hval : expectedGrid n₀ c i j = 1 := by
          simp [expectedGrid, hc0, hi0, hj0, hjc]
        rw [hval]
        unfold invGrid
        split_ifs <;> first
        | exact absurd rfl (by assumption)
        | exact False.elim (by assumption)
        | (simp only [Prod.mk.injEq]; omega)
      · have hval : expectedGrid n₀ c i j = n₀ + (j - 1) := by
          simp [expectedGrid, hc0, hi0, hj0, hjc]
        rw [hval]
        unfold invGrid
        split_ifs <;> first
        | exact absurd rfl (by assumption)
        | exact False.elim (by assumption)
        | (simp only [Prod.mk.injEq]; omega)
  · by_cases hic : i = c
    · by_cases hj0 : j = 0
      · have hval : expectedGrid n₀ c i j = 3 := by
          simp [expectedGrid, hc0, hi0, hic, hj0]
        rw [hval]
        unfold invGrid
        split_ifs <;> first
        | exact absurd rfl (by assumption)
        | exact False.elim (by assumption)
        | (simp only [Prod.mk.injEq]; omega)
      · by_cases hjc : j = c
        · have hval : expectedGrid n₀ c i j = 2 := by
            simp [expectedGrid, hc0, hi0, hic, hj0, hjc]
          rw [hval]
          unfold invGrid
          split_ifs <;> first
        | exact absurd rfl (by assumption)
        | exact False.elim (by assumption)
        | (simp only [Prod.mk.injEq]; omega)
        · have hval : expectedGrid n₀ c i j =
              n₀ + (c - 1) + (j - 1) := by
            simp [expectedGrid, hc0, hi0, hic, hj0, hjc]
          rw [hval]
          unfold invGrid
          split_ifs <;> first
        | exact absurd rfl (by assumption)
        | exact False.elim (by assumption)
        | (simp only [Prod.mk.injEq]; omega)
    · by_cases hj0 : j = 0
      · have hval : expectedGrid n₀ c i j = n₀ + 2 * (c - 1) + (i - 1) := by
          simp [expectedGrid, hc0, hi0, hic, hj0]
        rw [hval]
        unfold invGrid
        split_ifs <;> first
        | exact absurd rfl (by assumption)
        | exact False.elim (by assumption)
        | (simp only [Prod.mk.injEq]; omega)
      · by_cases hjc : j = c
        · have hval : expectedGrid n₀ c i j =
              n₀ + 3 * (c - 1) + (i - 1) := by
            simp [expectedGrid, hc0, hi0, hic, hj0, hjc]
          rw [hval]
          unfold invGrid
          split_ifs <;> first
        | exact absurd rfl (by assumption)
        | exact False.elim (by assumption)
        | (simp only [Prod.mk.injEq]; omega)
        · have hval : expectedGrid n₀ c i j =
              n₀ + 4 * (c - 1) + (i - 1) * (c - 1) + (j - 1) := by
            simp [expectedGrid, hc0, hi0, hic, hj0, hjc]
          rw [hval]
          set p := (i - 1) * (c - 1) with hp
          have hple : p ≤ (c - 2) * (c - 1) := by
            rw [hp]
            exact Nat.mul_le_mul_right _ (by omega)
          have hw : n₀ + 4 * (c - 1) + p + (j - 1) - n₀ - 4 * (c - 1) =
              (j - 1) + (i - 1) * (c - 1) := by
            rw [hp] at *
            omega
          unfold invGrid
          split_ifs <;> try (first
            | exact False.elim (by assumption)
            | (exfalso; omega))
          rw [hw, Nat.add_mul_div_right _ _ hcm,
            Nat.add_mul_mod_self_right, Nat.div_eq_of_lt (by omega),
            Nat.mod_eq_of_lt (by omega)]
          simp only [Prod.mk.injEq]
          omega

/-! ### Faces and the assembled mesh -/

theorem bboxFaces_length (g : ℕ → ℕ → ℕ) (c : ℕ) :
    (bboxFaces g c).length = c * c := by
  unfold bboxFaces
  rw [List.length_flatMap]
  simp [Function.comp_def, List.map_const']

theorem mem_bboxFaces (g : ℕ → ℕ → ℕ) (c : ℕ) (f : List ℕ)
    (hf : f ∈ bboxFaces g c) :
    ∃ i j, i < c ∧ j < c ∧
      f = [g i j, g i (j + 1), g (i + 1) (j + 1), g (i + 1) j] := by
  unfold bboxFaces at hf
  obtain ⟨i, hi, hf⟩ := List.mem_flatMap.mp hf
  obtain ⟨j, hj, hf⟩ := List.mem_map.mp hf
  exact ⟨i, j, List.mem_range.mp hi, List.mem_range.mp hj, hf.symm⟩

theorem triangulateMesh_points (m : Mesh) :
    (triangulateMesh m).points = m.points := rfl

theorem triangulateMesh_faces_length (m : Mesh) :
    (triangulateMesh m).faces.length = 2 * m.faces.length := by
  unfold triangulateMesh
  rw [List.length_flatMap]
  simp [Function.comp_def, List.map_const', Nat.mul_comm]

theorem triangulateMesh_faces_three (m : Mesh) :
    ∀ f ∈ (triangulateMesh m).faces, f.length = 3 := by
  intro f hf
  unfold triangulateMesh at hf
  obtain ⟨q, _, hq⟩ := List.mem_flatMap.mp hf
  simp only [List.mem_cons, List.mem_singleton, List.not_mem_nil,
    or_false] at hq
  rcases hq with rfl | rfl <;> rfl

theorem bbox_success (lons lats : List ℚ) (ellps : String) (radius : ℚ)
    (c : ℕ) (hlen : lons.length = lats.length) (h4 : 4 ≤ lons.length)
    (h5 : lons.length ≤ 5)
    (hcl : (isClose (lons.getD 0 0) (lons.getLastD 0) &&
      isClose (lats.getD 0 0) (lats.getLastD 0)) = false)
    (hc : 2 ≤ c) :
    ∃ s, bboxBuild lons lats (pyprojGeod ellps) c = some s ∧
      (∀ i j, i ≤ c → j ≤ c →
        s.idx_map i j = expectedGrid lons.length c i j) ∧
      (∀ w ∈ s.writes, w.1 ≤ c ∧ w.2.1 ≤ c ∧
        w.2.2 = expectedGrid lons.length c w.1 w.2.1) ∧
      (∀ i j, i ≤ c → j ≤ c → ∃ v, (i, j, v) ∈ s.writes) ∧
      (∀ w ∈ s.writes.take (4 * (c + 1)),
        w.1 = 0 ∨ w.1 = c ∨ w.2.1 = 0 ∨ w.2.1 = c) ∧
      (to_xyz s.bbox_lons s.bbox_lats radius).length =
        lons.length + (c + 3) * (c - 1) ∧
      bbox lons lats ellps radius c false =
        .ok { points := to_xyz s.bbox_lons s.bbox_lats radius
              faces := bboxFaces s.idx_map c } ∧
      bbox lons lats ellps radius c true =
        .ok (triangulateMesh
          { points := to_xyz s.bbox_lons s.bbox_lats radius
            faces := bboxFaces s.idx_map c }) := by
  obtain ⟨s, hbuild, hcnt, hlon, hlat, hmap, hwmem, hwcov, hborder⟩ :=
    bboxBuild_spec lons lats (pyprojGeod ellps) c hc
  have hxyz : (to_xyz s.bbox_lons s.bbox_lats radius).length =
      lons.length + (c + 3) * (c - 1) := by
    unfold to_xyz
    rw [List.length_zipWith, hlon, hlat, hlen]
    exact min_self _
  have hv1 : ¬lons.length ≠ lats.length := by omega
  have hv2 : ¬lons.length < 4 := by omega
  have hv3 : ¬5 < lons.length := by omega
  have hv4 : ¬((isClose (lons.getD 0 0) (lons.getLastD 0) &&
      isClose (lats.getD 0 0) (lats.getLastD 0)) = true) := by
    rw [hcl]
    simp
  refine ⟨s, hbuild, hmap, hwmem, hwcov, hborder, hxyz, ?_, ?_⟩
  · show bbox lons lats ellps radius c false = _
    unfold bbox
    rw [if_neg hv1, if_neg hv2, if_neg hv3, if_neg hv4, hbuild]
    rfl
  · show bbox lons lats ellps radius c true = _
    unfold bbox
    rw [if_neg hv1, if_neg hv2, if_neg hv3, if_neg hv4, hbuild]
    rfl

/-! ### Helper facts for concrete witnesses -/

theorem absQ_nonneg (x : ℚ) : 0 ≤ absQ x := by
  unfold absQ
  split
  · linarith
  · linarith

theorem isClose_self (a : ℚ) : isClose a a = true := by
  unfold isClose
  rw [sub_self]
  rw [decide_eq_true_eq]
  have h0 : absQ 0 = 0 := by simp [absQ]
  rw [h0]
  have h1 : (0 : ℚ) ≤ 1 / 100000000 := by norm_num
  have h2 : (0 : ℚ) ≤ 1 / 100000 * absQ a :=
    mul_nonneg (by norm_num) (absQ_nonneg a)
  linarith

theorem isClose_zero_ten : isClose (0 : ℚ) 10 = false := by
  unfold isClose
  rw [decide_eq_false_iff_not]
  intro hcontra
  norm_num [absQ] at hcontra

theorem geodesic_at_185 :
    geodesic 185 0 197 30 1 false false false none =
      some ([-169], [15]) := by
  simp [geodesic, Geod.npts, pyprojGeod, affinePos, wrap, List.range_succ]
  norm_num

/-! ### Claim theorems -/

/-- C2: `geodesic_by_idx(lons, lats, i, j, ...)` returns exactly the same
pair of sequences as `geodesic(lons[i], lats[i], lons[j], lats[j], ...)`
for all valid indices and identical remaining arguments. -/
theorem C2_geodesic_by_idx_delegates (lons lats : List ℚ) (i j : ℕ)
    (hi : i < lons.length) (hi' : i < lats.length)
    (hj : j < lons.length) (hj' : j < lats.length)
    (npts : ℕ) (radians include_start include_end : Bool)
    (geod : Option Geod) :
    geodesic_by_idx lons lats i j npts radians include_start include_end
        geod =
      geodesic (lons.get ⟨i, hi⟩) (lats.get ⟨i, hi'⟩) (lons.get ⟨j, hj⟩)
        (lats.get ⟨j, hj'⟩) npts radians include_start include_end geod := by
  unfold geodesic_by_idx geodesic
  rw [List.getD_eq_getElem lons 0 hi, List.getD_eq_getElem lats 0 hi',
    List.getD_eq_getElem lons 0 hj, List.getD_eq_getElem lats 0 hj']
  simp only [List.get_eq_getElem]
  cases geod <;> rfl

/-- Witness for C2 at concrete inputs: indices 0 and 2 into 3-element
coordinate arrays. -/
theorem C2_geodesic_by_idx_delegates_witness :
    geodesic_by_idx [10, 20, 30] [1, 2, 3] 0 2 5 false true true none =
      geodesic (([10, 20, 30] : List ℚ).get ⟨0, by decide⟩)
        (([1, 2, 3] : List ℚ).get ⟨0, by decide⟩)
        (([10, 20, 30] : List ℚ).get ⟨2, by decide⟩)
        (([1, 2, 3] : List ℚ).get ⟨2, by decide⟩) 5 false true true none :=
  C2_geodesic_by_idx_delegates [10, 20, 30] [1, 2, 3] 0 2
    (Nat.zero_lt_succ 2) (by decide) (Nat.lt_succ_self 2) (by decide)
    5 false true true none

/-- C3 counterexample: the claim fails at `npts = 0` with both inclusion
flags false — instead of returning two empty sequences, `geodesic`
raises there (the interpolation yields no points, so the source's
`glons, glats = zip(*glonlats)` unpacking fails, embedded as `none`), so
no pair of sequences is returned at all. -/
theorem C3_counterexample_npts_zero :
    geodesic 0 0 10 10 0 false false false none = none := rfl

/-- C3 amended: for every valid pair of endpoints and every `npts` on
which the call produces at least one point — that is, every `npts ≥ 1`,
and `npts = 0` whenever `include_start` or `include_end` is set —
`geodesic` returns two sequences of equal length, and that length is
`npts` plus one for each of `include_start` and `include_end`: `npts`
counts the intermediate points independently of the inclusion flags.
In the single remaining case (`npts = 0` with both flags false) the
call raises instead of returning sequences. -/
theorem C3_geodesic_lengths (start_lon start_lat end_lon end_lat : ℚ)
    (npts : ℕ) (radians include_start include_end : Bool)
    (geod : Option Geod)
    (h : 0 < npts + (if include_start then 1 else 0) +
      (if include_end then 1 else 0)) :
    ∃ glons glats,
      geodesic start_lon start_lat end_lon end_lat npts radians
        include_start include_end geod = some (glons, glats) ∧
      glons.length = glats.length ∧
      glons.length = npts + (if include_start then 1 else 0) +
        (if include_end then 1 else 0) := by
  obtain ⟨glons, glats, heq, h1, h2⟩ :=
    geodesic_eq_some start_lon start_lat end_lon end_lat npts radians
      include_start include_end geod (by omega)
  exact ⟨glons, glats, heq, by omega, by omega⟩

/-- Witness for C3: 3 intermediate points with the start included give
sequences of length 4. -/
theorem C3_geodesic_lengths_witness :
    (0 : ℕ) < 3 + (if true then 1 else 0) + (if false then 1 else 0) ∧
    ∃ glons glats,
      geodesic 100 0 200 50 3 false true false none =
        some (glons, glats) ∧
      glons.length = glats.length ∧
      glons.length = 3 + (if true then 1 else 0) +
        (if false then 1 else 0) :=
  ⟨by decide, C3_geodesic_lengths 100 0 200 50 3 false true false none
    (by decide)⟩

/-- C4: every longitude returned by `geodesic` lies in the canonical
wrap range `[-180, 180)` regardless of the input longitude range, while
the returned latitudes are exactly the latitudes of the interpolated
geodesic points, unaltered by any normalization. -/
theorem C4_geodesic_wrap (start_lon start_lat end_lon end_lat : ℚ)
    (npts : ℕ) (radians include_start include_end : Bool)
    (geod : Option Geod) (glons glats : List ℚ)
    (h : geodesic start_lon start_lat end_lon end_lat npts radians
      include_start include_end geod = some (glons, glats)) :
    (∀ x ∈ glons, -180 ≤ x ∧ x < 180) ∧
    glats = ((geod.getD (pyprojGeod MANIFOLD_ELLIPSE)).npts start_lon
      start_lat end_lon end_lat npts radians
      (if include_start then 0 else 1)
      (if include_end then 0 else 1)).map (fun p => p.2) :=
  ⟨geodesic_none_mem_range start_lon start_lat end_lon end_lat npts
      radians include_start include_end geod glons glats h,
    geodesic_lats_unaltered start_lon start_lat end_lon end_lat npts
      radians include_start include_end geod glons glats h⟩

/-- Witness for C4: a start longitude of 185° produces the longitude 191°
wrapped to -169°, with the latitude 15 untouched. -/
theorem C4_geodesic_wrap_witness :
    (∀ x ∈ [(-169 : ℚ)], -180 ≤ x ∧ x < 180) ∧
    [(15 : ℚ)] = ((((none : Option Geod)).getD
      (pyprojGeod MANIFOLD_ELLIPSE)).npts 185 0 197 30 1 false
      (if false then 0 else 1) (if false then 0 else 1)).map
        (fun p => p.2) :=
  C4_geodesic_wrap 185 0 197 30 1 false false false none
    [-169] [15] geodesic_at_185

/-- C5: `bbox` validates before any construction: a longitude/latitude
count mismatch fails with the shape-mismatch error naming both counts
(taking precedence over the corner-count checks); with equal counts, a
count below 4 fails with the insufficient-corners error and a count
above 5 fails with the ambiguous open/closed-geometry error, each naming
the count; in every such case no mesh is produced. -/
theorem C5_bbox_validation (lons lats : List ℚ) (ellps : String)
    (radius : ℚ) (c : ℕ) (triangulate : Bool) :
    (lons.length ≠ lats.length →
      bbox lons lats ellps radius c triangulate =
        .error (.shapeMismatch lons.length lats.length)) ∧
    (lons.length = lats.length → lons.length < 4 →
      bbox lons lats ellps radius c triangulate =
        .error (.insufficientCorners lons.length)) ∧
    (lons.length = lats.length → 5 < lons.length →
      bbox lons lats ellps radius c triangulate =
        .error (.ambiguousCorners lons.length)) ∧
    ((lons.length ≠ lats.length ∨ lons.length < 4 ∨ 5 < lons.length) →
      ∀ m : Mesh, bbox lons lats ellps radius c triangulate ≠ .ok m) := by
  have h1 : lons.length ≠ lats.length →
      bbox lons lats ellps radius c triangulate =
        .error (.shapeMismatch lons.length lats.length) := by
    intro h
    unfold bbox
    rw [if_pos h]
  have h2 : lons.length = lats.length → lons.length < 4 →
      bbox lons lats ellps radius c triangulate =
        .error (.insufficientCorners lons.length) := by
    intro h h4
    unfold bbox
    rw [if_neg (by omega), if_pos h4]
  have h3 : lons.length = lats.length → 5 < lons.length →
      bbox lons lats ellps radius c triangulate =
        .error (.ambiguousCorners lons.length) := by
    intro h h5
    unfold bbox
    rw [if_neg (by omega), if_neg (by omega), if_pos h5]
  refine ⟨h1, h2, h3, ?_⟩
  intro hbad m hok
  by_cases hne : lons.length = lats.length
  · rcases hbad with hbad | hbad | hbad
    · exact hbad hne
    · rw [h2 hne hbad] at hok
      exact Except.noConfusion hok
    · rw [h3 hne hbad] at hok
      exact Except.noConfusion hok
  · rw [h1 hne] at hok
    exact Except.noConfusion hok

/-- Witness for C5: 4 longitudes with 5 latitudes give ShapeMismatch
(naming 4 and 5) rather than a corner-count error; 3 corners and 6
corners give the two corner-count errors naming the counts. -/
theorem C5_bbox_validation_witness :
    bbox [0, 1, 2, 3] [0, 1, 2, 3, 4] "WGS84" 1 2 false =
      .error (.shapeMismatch 4 5) ∧
    bbox [0, 1, 2] [0, 1, 2] "WGS84" 1 2 false =
      .error (.insufficientCorners 3) ∧
    bbox [0, 1, 2, 3, 4, 5] [0, 1, 2, 3, 4, 5] "WGS84" 1 2 false =
      .error (.ambiguousCorners 6) :=
  ⟨(C5_bbox_validation [0, 1, 2, 3] [0, 1, 2, 3, 4] "WGS84" 1 2 false).1
      (by decide),
    (C5_bbox_validation [0, 1, 2] [0, 1, 2] "WGS84" 1 2 false).2.1
      rfl (by decide),
    (C5_bbox_validation [0, 1, 2, 3, 4, 5] [0, 1, 2, 3, 4, 5] "WGS84" 1 2
      false).2.2.1 rfl (by decide)⟩

/-- C1 (code bug): a 5-corner closed ring is not reduced to the open
4-corner form: the source's `lons, lats = lons[-1], lats[-1]` (where the
slices `lons[:-1], lats[:-1]` were clearly intended — the comment reads
"ensure the specified bbox geometry is open" and the `n_lons > 5` error
message advertises 5-point closed input) replaces both coordinate arrays
with their scalar last elements, so the subsequent
`bbox_extend(lons, lats)` raises a `TypeError` and `bbox` returns no
mesh at all, while the 4-corner call on the same corners succeeds. -/
theorem C1_closed_ring_reduction_bug :
    bbox [0, 10, 10, 0, 0] [0, 0, 10, 10, 0] "WGS84" (11 / 10) 2 false =
      .error (.scalarTypeError 0 0) ∧
    ∃ m, bbox [0, 10, 10, 0] [0, 0, 10, 10] "WGS84" (11 / 10) 2 false =
      .ok m := by
  constructor
  · have hcond : (isClose (([0, 10, 10, 0, 0] : List ℚ).getD 0 0)
        (([0, 10, 10, 0, 0] : List ℚ).getLastD 0) &&
        isClose (([0, 0, 10, 10, 0] : List ℚ).getD 0 0)
        (([0, 0, 10, 10, 0] : List ℚ).getLastD 0)) = true := by
      show (isClose (0 : ℚ) 0 && isClose (0 : ℚ) 0) = true
      rw [isClose_self]
      rfl
    have hd1 : ¬(([0, 10, 10, 0, 0] : List ℚ).length ≠
        ([0, 0, 10, 10, 0] : List ℚ).length) := by decide
    unfold bbox
    rw [if_neg hd1, if_neg (by decide), if_neg (by decide), if_pos hcond]
    rfl
  · have hcl : (isClose (([0, 10, 10, 0] : List ℚ).getD 0 0)
        (([0, 10, 10, 0] : List ℚ).getLastD 0) &&
        isClose (([0, 0, 10, 10] : List ℚ).getD 0 0)
        (([0, 0, 10, 10] : List ℚ).getLastD 0)) = false := by
      show (isClose (0 : ℚ) 0 && isClose (0 : ℚ) 10) = false
      rw [isClose_zero_ten, Bool.and_false]
    obtain ⟨s, hbuild, hmap, hwmem, hwcov, hborder, hxyz, hfalse, htrue⟩ :=
      bbox_success [0, 10, 10, 0] [0, 0, 10, 10] "WGS84" (11 / 10) 2 rfl
        (le_refl 4) (Nat.le_succ 4) hcl (le_refl 2)
    exact ⟨_, hfalse⟩

/-- C10: the closed-ring reduction is triggered by coordinate closeness
alone, not by the corner count: with exactly 4 corners whose first and
last points are numerically close on both axes, `bbox` also takes the
reduction branch, replacing the coordinate arrays with their scalar last
elements, and therefore fails with the resulting `TypeError` instead of
returning the mesh of those 4 corners. -/
theorem C10_reduction_on_close_four_corners (lons lats : List ℚ)
    (ellps : String) (radius : ℚ) (c : ℕ) (triangulate : Bool)
    (hlons : lons.length = 4) (hlats : lats.length = 4)
    (hcl : (isClose (lons.getD 0 0) (lons.getLastD 0) &&
      isClose (lats.getD 0 0) (lats.getLastD 0)) = true) :
    bbox lons lats ellps radius c triangulate =
      .error (.scalarTypeError (lons.getLastD 0) (lats.getLastD 0)) ∧
    ∀ m : Mesh, bbox lons lats ellps radius c triangulate ≠ .ok m := by
  have herr : bbox lons lats ellps radius c triangulate =
      .error (.scalarTypeError (lons.getLastD 0) (lats.getLastD 0)) := by
    have hv1 : ¬lons.length ≠ lats.length := by omega
    have hv2 : ¬lons.length < 4 := by omega
    have hv3 : ¬5 < lons.length := by omega
    unfold bbox
    rw [if_neg hv1, if_neg hv2, if_neg hv3, if_pos hcl]
  refine ⟨herr, ?_⟩
  intro m hok
  rw [herr] at hok
  exact Except.noConfusion hok

/-- Witness for C10: 4 corners whose first and last points coincide
exactly trigger the reduction and the `TypeError`. -/
theorem C10_reduction_on_close_four_corners_witness :
    bbox [5, 1, 2, 5] [7, 3, 4, 7] "WGS84" 1 3 false =
      .error (.scalarTypeError (([5, 1, 2, 5] : List ℚ).getLastD 0)
        (([7, 3, 4, 7] : List ℚ).getLastD 0)) ∧
    ∀ m : Mesh, bbox [5, 1, 2, 5] [7, 3, 4, 7] "WGS84" 1 3 false ≠
      .ok m :=
  C10_reduction_on_close_four_corners [5, 1, 2, 5] [7, 3, 4, 7] "WGS84" 1
    3 false rfl rfl
    (by
      show (isClose (5 : ℚ) 5 && isClose (7 : ℚ) 7) = true
      rw [isClose_self, isClose_self]
      rfl)

/-- C6: every successful `bbox` call emits the face list enumerating, in
row-major order, exactly the faces `(i, j)` for `i, j ∈ [0,c) × [0,c)`,
face `(i, j)` referencing the IndexGrid entries at positions `(i,j),
(i,j+1), (i+1,j+1), (i+1,j)` in that cyclic order. -/
theorem C6_faces_enumerate_grid (lons lats : List ℚ) (ellps : String)
    (radius : ℚ) (c : ℕ) (hlen : lons.length = lats.length)
    (h4 : 4 ≤ lons.length) (h5 : lons.length ≤ 5)
    (hcl : (isClose (lons.getD 0 0) (lons.getLastD 0) &&
      isClose (lats.getD 0 0) (lats.getLastD 0)) = false)
    (hc : 2 ≤ c) :
    ∃ s m, bboxBuild lons lats (pyprojGeod ellps) c = some s ∧
      bbox lons lats ellps radius c false = .ok m ∧
      m.faces = (List.range c).flatMap (fun i => (List.range c).map fun j =>
        [s.idx_map i j, s.idx_map i (j + 1), s.idx_map (i + 1) (j + 1),
          s.idx_map (i + 1) j]) ∧
      m.faces.length = c * c := by
  obtain ⟨s, hbuild, hmap, hwmem, hwcov, hborder, hxyz, hfalse, htrue⟩ :=
    bbox_success lons lats ellps radius c hlen h4 h5 hcl hc
  exact ⟨s, _, hbuild, hfalse, rfl, bboxFaces_length _ _⟩

/-- Witness for C6 at a concrete 4-corner box with `c = 2`. -/
theorem C6_faces_enumerate_grid_witness :
    ∃ s m, bboxBuild [0, 10, 10, 0] [0, 0, 10, 10] (pyprojGeod "WGS84")
        2 = some s ∧
      bbox [0, 10, 10, 0] [0, 0, 10, 10] "WGS84" 1 2 false = .ok m ∧
      m.faces = (List.range 2).flatMap (fun i => (List.range 2).map fun j =>
        [s.idx_map i j, s.idx_map i (j + 1), s.idx_map (i + 1) (j + 1),
          s.idx_map (i + 1) j]) ∧
      m.faces.length = 2 * 2 :=
  C6_faces_enumerate_grid [0, 10, 10, 0] [0, 0, 10, 10] "WGS84" 1 2 rfl
    (le_refl 4) (Nat.le_succ 4)
    (by
      show (isClose (0 : ℚ) 0 && isClose (0 : ℚ) 10) = false
      rw [isClose_zero_ten, Bool.and_false])
    (le_refl 2)

/-- C7: every successful non-triangulated `bbox` call yields exactly
`c²` faces whose 4 vertex indices are pairwise distinct and are valid
offsets into the vertex buffer; with exactly 4 open corners the vertex
count is `(c+1)²` — in particular 4 faces and 9 vertices at `c = 2`. -/
theorem C7_faces_valid (lons lats : List ℚ) (ellps : String)
    (radius : ℚ) (c : ℕ) (hlen : lons.length = lats.length)
    (h4 : 4 ≤ lons.length) (h5 : lons.length ≤ 5)
    (hcl : (isClose (lons.getD 0 0) (lons.getLastD 0) &&
      isClose (lats.getD 0 0) (lats.getLastD 0)) = false)
    (hc : 2 ≤ c) :
    ∃ m, bbox lons lats ellps radius c false = .ok m ∧
      m.faces.length = c * c ∧
      (∀ f ∈ m.faces, f.length = 4 ∧ f.Nodup ∧
        ∀ v ∈ f, v < m.points.length) ∧
      (lons.length = 4 → m.points.length = (c + 1) * (c + 1)) := by
  obtain ⟨s, hbuild, hmap, hwmem, hwcov, hborder, hxyz, hfalse, htrue⟩ :=
    bbox_success lons lats ellps radius c hlen h4 h5 hcl hc
  have hne : ∀ i1 j1 i2 j2, i1 ≤ c → j1 ≤ c → i2 ≤ c → j2 ≤ c →
      ¬(i1 = i2 ∧ j1 = j2) →
      expectedGrid lons.length c i1 j1 ≠ expectedGrid lons.length c i2 j2 := by
    intro i1 j1 i2 j2 h1 h2 h3 h4' hdiff heq
    have e1 := invGrid_expectedGrid lons.length c i1 j1 hc h4 h1 h2
    have e2 := invGrid_expectedGrid lons.length c i2 j2 hc h4 h3 h4'
    rw [heq, e2] at e1
    obtain ⟨ha, hb⟩ := Prod.ext_iff.mp e1
    exact hdiff ⟨ha.symm, hb.symm⟩
  refine ⟨_, hfalse, bboxFaces_length _ _, ?_, ?_⟩
  · intro f hf
    obtain ⟨i, j, hi, hj, rfl⟩ := mem_bboxFaces s.idx_map c f hf
    have bi : i ≤ c := Nat.le_of_lt hi
    have bj : j ≤ c := Nat.le_of_lt hj
    have bi1 : i + 1 ≤ c := hi
    have bj1 : j + 1 ≤ c := hj
    have g1 : s.idx_map i j = expectedGrid lons.length c i j :=
      hmap i j bi bj
    have g2 : s.idx_map i (j + 1) = expectedGrid lons.length c i (j + 1) :=
      hmap i (j + 1) bi bj1
    have g3 : s.idx_map (i + 1) (j + 1) =
        expectedGrid lons.length c (i + 1) (j + 1) :=
      hmap (i + 1) (j + 1) bi1 bj1
    have g4 : s.idx_map (i + 1) j = expectedGrid lons.length c (i + 1) j :=
      hmap (i + 1) j bi1 bj
    refine ⟨rfl, ?_, ?_⟩
    · rw [g1, g2, g3, g4]
      refine List.Pairwise.cons ?_ (List.Pairwise.cons ?_
        (List.Pairwise.cons ?_ (List.Pairwise.cons
          (fun b hb => absurd hb (List.not_mem_nil b)) List.Pairwise.nil)))
      · intro b hb
        simp only [List.mem_cons, List.not_mem_nil, or_false] at hb
        rcases hb with rfl | rfl | rfl
        · exact hne i j i (j + 1) bi bj bi bj1 (by omega)
        · exact hne i j (i + 1) (j + 1) bi bj bi1 bj1 (by omega)
        · exact hne i j (i + 1) j bi bj bi1 bj (by omega)
      · intro b hb
        simp only [List.mem_cons, List.not_mem_nil, or_false] at hb
        rcases hb with rfl | rfl
        · exact hne i (j + 1) (i + 1) (j + 1) bi bj1 bi1 bj1 (by omega)
        · exact hne i (j + 1) (i + 1) j bi bj1 bi1 bj (by omega)
      · intro b hb
        simp only [List.mem_cons, List.not_mem_nil, or_false] at hb
        rcases hb with rfl
        exact hne (i + 1) (j + 1) (i + 1) j bi1 bj1 bi1 bj (by omega)
    · intro v hv
      rw [hxyz]
      simp only [List.mem_cons, List.not_mem_nil, or_false] at hv
      rcases hv with rfl | rfl | rfl | rfl
      · rw [g1]
        exact expectedGrid_lt lons.length c i j hc h4 bi bj
      · rw [g2]
        exact expectedGrid_lt lons.length c i (j + 1) hc h4 bi bj1
      · rw [g3]
        exact expectedGrid_lt lons.length c (i + 1) (j + 1) hc h4 bi1 bj1
      · rw [g4]
        exact expectedGrid_lt lons.length c (i + 1) j hc h4 bi1 bj
  · intro h4'
    rw [hxyz, h4']
    obtain ⟨m', rfl⟩ : ∃ m', c = m' + 2 := ⟨c - 2, by omega⟩
    have hsub : m' + 2 - 1 = m' + 1 := rfl
    rw [hsub]
    ring

/-- Witness for C7: the 4-corner box at `c = 2` has `2 * 2 = 4` faces
and `(2+1) * (2+1) = 9` vertices. -/
theorem C7_faces_valid_witness :
    ∃ m, bbox [0, 10, 10, 0] [0, 0, 10, 10] "WGS84" 1 2 false = .ok m ∧
      m.faces.length = 2 * 2 ∧
      (∀ f ∈ m.faces, f.length = 4 ∧ f.Nodup ∧
        ∀ v ∈ f, v < m.points.length) ∧
      (([0, 10, 10, 0] : List ℚ).length = 4 →
        m.points.length = (2 + 1) * (2 + 1)) :=
  C7_faces_valid [0, 10, 10, 0] [0, 0, 10, 10] "WGS84" 1 2 rfl
    (le_refl 4) (Nat.le_succ 4)
    (by
      show (isClose (0 : ℚ) 0 && isClose (0 : ℚ) 10) = false
      rw [isClose_zero_ten, Bool.and_false])
    (le_refl 2)

/-- C9: on every input where the non-triangulated call succeeds,
`bbox(..., triangulate=True)` returns a mesh with exactly twice as many
faces, every face having exactly 3 vertex indices (each quad split along
a fixed diagonal), and the point array unchanged. -/
theorem C9_triangulate_doubles (lons lats : List ℚ) (ellps : String)
    (radius : ℚ) (c : ℕ) (hlen : lons.length = lats.length)
    (h4 : 4 ≤ lons.length) (h5 : lons.length ≤ 5)
    (hcl : (isClose (lons.getD 0 0) (lons.getLastD 0) &&
      isClose (lats.getD 0 0) (lats.getLastD 0)) = false)
    (hc : 2 ≤ c) :
    ∃ m mt, bbox lons lats ellps radius c false = .ok m ∧
      bbox lons lats ellps radius c true = .ok mt ∧
      mt.faces.length = 2 * m.faces.length ∧
      (∀ f ∈ mt.faces, f.length = 3) ∧
      mt.points = m.points := by
  obtain ⟨s, hbuild, hmap, hwmem, hwcov, hborder, hxyz, hfalse, htrue⟩ :=
    bbox_success lons lats ellps radius c hlen h4 h5 hcl hc
  exact ⟨_, _, hfalse, htrue, triangulateMesh_faces_length _,
    triangulateMesh_faces_three _, rfl⟩

/-- Witness for C9 at a concrete 4-corner box with `c = 2`. -/
theorem C9_triangulate_doubles_witness :
    ∃ m mt, bbox [0, 10, 10, 0] [0, 0, 10, 10] "WGS84" 1 2 false =
        .ok m ∧
      bbox [0, 10, 10, 0] [0, 0, 10, 10] "WGS84" 1 2 true = .ok mt ∧
      mt.faces.length = 2 * m.faces.length ∧
      (∀ f ∈ mt.faces, f.length = 3) ∧
      mt.points = m.points :=
  C9_triangulate_doubles [0, 10, 10, 0] [0, 0, 10, 10] "WGS84" 1 2 rfl
    (le_refl 4) (Nat.le_succ 4)
    (by
      show (isClose (0 : ℚ) 0 && isClose (0 : ℚ) 10) = false
      rw [isClose_zero_ten, Bool.and_false])
    (le_refl 2)

/-- C8 counterexample: with 4 corners and `c = 2`, the IndexGrid cell
`(0, 0)` receives two assignments during grid construction (one from the
row-0 slice write, one from the column-0 slice write), refuting
"every cell is assigned exactly once". -/
theorem C8_cell_assigned_twice :
    (bboxBuild [0, 10, 10, 0] [0, 0, 10, 10] (pyprojGeod "WGS84") 2).map
      (fun s =>
        (s.writes.filter fun w => w.1 == 0 && w.2.1 == 0).length) =
      some 2 := rfl

/-- C8 amended: during `bbox` grid construction every cell of the
`(c+1) × (c+1)` IndexGrid is assigned at least once — not exactly once —
before face generation; the first `4(c+1)` assignments (the four border
rows/columns, filled from the 4 corners) touch only border cells, the
interior rows follow, and every assignment writes the value the cell
finally holds, so re-assigned overlap cells are rewritten with identical
values; after filling, the corner cells `(0,0), (0,c), (c,c), (c,0)`
hold the original corner vertex indices `0, 1, 2, 3`. -/
theorem C8_grid_fill_amended (lons lats : List ℚ) (geod : Geod) (c : ℕ)
    (hc : 2 ≤ c) :
    ∃ s, bboxBuild lons lats geod c = some s ∧
      (∀ i j, i ≤ c → j ≤ c → ∃ v, (i, j, v) ∈ s.writes) ∧
      (∀ w ∈ s.writes, w.2.2 = s.idx_map w.1 w.2.1) ∧
      (∀ w ∈ s.writes.take (4 * (c + 1)),
        w.1 = 0 ∨ w.1 = c ∨ w.2.1 = 0 ∨ w.2.1 = c) ∧
      s.idx_map 0 0 = 0 ∧ s.idx_map 0 c = 1 ∧ s.idx_map c c = 2 ∧
      s.idx_map c 0 = 3 := by
  obtain ⟨s, hbuild, hcnt, hlon, hlat, hmap, hwmem, hwcov, hborder⟩ :=
    bboxBuild_spec lons lats geod c hc
  have hc0 : c ≠ 0 := by omega
  refine ⟨s, hbuild, hwcov, ?_, hborder, ?_, ?_, ?_, ?_⟩
  · intro w hw
    obtain ⟨h1, h2, h3⟩ := hwmem w hw
    rw [h3, hmap w.1 w.2.1 h1 h2]
  · rw [hmap 0 0 (by omega) (by omega)]
    simp [expectedGrid]
  · rw [hmap 0 c (by omega) (le_refl c)]
    simp [expectedGrid, hc0]
  · rw [hmap c c (le_refl c) (le_refl c)]
    simp [expectedGrid, hc0]
  · rw [hmap c 0 (le_refl c) (by omega)]
    simp [expectedGrid, hc0]

/-- Witness for the amended C8 at a concrete 4-corner box with
`c = 2`. -/
theorem C8_grid_fill_amended_witness :
    ∃ s, bboxBuild [0, 10, 10, 0] [0, 0, 10, 10] (pyprojGeod "WGS84") 2 =
        some s ∧
      (∀ i j, i ≤ 2 → j ≤ 2 → ∃ v, (i, j, v) ∈ s.writes) ∧
      (∀ w ∈ s.writes, w.2.2 = s.idx_map w.1 w.2.1) ∧
      (∀ w ∈ s.writes.take (4 * (2 + 1)),
        w.1 = 0 ∨ w.1 = 2 ∨ w.2.1 = 0 ∨ w.2.1 = 2) ∧
      s.idx_map 0 0 = 0 ∧ s.idx_map 0 2 = 1 ∧ s.idx_map 2 2 = 2 ∧
      s.idx_map 2 0 = 3 :=
  C8_grid_fill_amended [0, 10, 10, 0] [0, 0, 10, 10] (pyprojGeod "WGS84")
    2 (by decide)

end Geovista
